import Mathlib

/-
Verification of the retrieval-augmented mapping engine of the GRC_AI
repository (src/rag_engine.py): the crosswalk Pattern Store and its
loader, the Mapping Resolver, the policy ingestion pipeline, and the
Context Retriever.

The ChromaDB backend is modelled abstractly: a collection is the list of
its records, and a nearest-neighbor query orders the records by a
distance function d induced by the embedding provider (lower = more
similar).  Backend exceptions are injected through an explicit error
parameter; the Python code catches them, so the model shows what the
caller receives in that case.
-/

namespace RagEngine

/-- One row of the framework crosswalk corpus: a named risk pattern, the
description text used as the embedding basis, and the four verified
control identifiers (src/rag_engine.py lines 55-62). -/
structure RiskPattern where
  pattern_name : String
  description : String
  iso_27001 : String
  soc_2 : String
  hipaa : String
  nist_csf : String
  deriving Repr, DecidableEq

/-- The metadata dictionary built for one corpus row by load_crosswalk_db
(src/rag_engine.py lines 56-62); the very value the Mapping Resolver
returns on an accepted match (line 106). -/
def rowMetadata (r : RiskPattern) : List (String × String) :=
  [("pattern_name", r.pattern_name), ("iso_27001", r.iso_27001),
   ("soc_2", r.soc_2), ("hipaa", r.hipaa), ("nist_csf", r.nist_csf)]

/-- Ranked result list of a ChromaDB nearest-neighbor query: the stored
records ordered by ascending key (the distance to the query text). -/
def rankBy {α : Type} (key : α → ℚ) (xs : List α) : List α :=
  List.insertionSort (fun a b => key a ≤ key b) xs

/-- Default acceptance threshold of the Mapping Resolver
(src/rag_engine.py line 77, threshold=1.4): the rational 14/10. -/
def defaultThreshold : ℚ := mkRat 14 10

/-- Shallow embedding of get_framework_mappings (src/rag_engine.py lines
77-117).  store is the crosswalk collection contents, d the distance the
embedding provider induces between the finding text and a stored
description, queryError an exception raised by the backend query and
caught by the handler at lines 115-117 (which returns None). -/
def get_framework_mappings (d : String → String → ℚ) (store : List RiskPattern)
    (finding_text : String) (threshold : ℚ) (queryError : Option String) :
    Option (List (String × String)) :=
  if store.length = 0 then none
  else
    match queryError with
    | some _ => none
    | none =>
      match rankBy (fun p => d finding_text p.description) store with
      | [] => none
      | p :: _ =>
        if d finding_text p.description < threshold then some (rowMetadata p)
        else none

/-- Shallow embedding of load_crosswalk_db (src/rag_engine.py lines
32-75).  store is the crosswalk collection before the call; csv is none
when framework_crosswalk.csv does not exist and otherwise holds the
parsed rows.  The result is the returned Boolean together with the
collection contents afterwards. -/
def load_crosswalk_db (store : List RiskPattern) (csv : Option (List RiskPattern)) :
    Bool × List RiskPattern :=
  if 0 < store.length then (true, store)
  else
    match csv with
    | none => (false, store)
    | some rows => (true, rows)

/-- Splitting accumulator loop behind pySplit: Python str.split with the
two-character separator of two newlines, leftmost non-overlapping. -/
def splitChunksAux : List Char → List Char → List (List Char)
  | [], acc => [acc.reverse]
  | '\n' :: '\n' :: rest, acc => acc.reverse :: splitChunksAux rest []
  | c :: rest, acc => splitChunksAux rest (c :: acc)

/-- Python text.split of src/rag_engine.py line 133: split the extracted
text on double-newline paragraph boundaries. -/
def pySplit (s : String) : List String :=
  (splitChunksAux s.data []).map (fun cs => String.mk cs)

/-- Python str.strip of src/rag_engine.py line 148: remove leading and
trailing whitespace characters. -/
def pyStrip (s : String) : String :=
  String.mk (((s.data.dropWhile Char.isWhitespace).reverse.dropWhile Char.isWhitespace).reverse)

/-- Page-by-page text extraction of src/rag_engine.py lines 126-129: the
per-page results concatenated, a page without extractable text (None in
Python) contributing the empty string. -/
def extractedText (pages : List (Option String)) : String :=
  pages.foldl (fun acc p => acc ++ p.getD "") ""

/-- The chunk filter loop of ingest_policy (src/rag_engine.py lines
145-150): a raw chunk is kept exactly when its stripped length exceeds
50 characters. -/
def keptChunks (chunks : List String) : List String :=
  chunks.filter (fun c => 50 < (pyStrip c).length)

/-- Shallow embedding of ingest_policy (src/rag_engine.py lines 119-161).
prior is the policy collection before the call; pdf is the outcome of
the PDF reader on the path (error when the reader raises, otherwise the
per-page extraction results); addError injects a store write error
raised by collection.add.  The result is the returned (success, message)
pair together with the policy collection afterwards; the delete-then-
recreate step of lines 137-142 leaves the collection empty before any
add happens. -/
def ingest_policy (prior : List String) (pdf : Except String (List (Option String)))
    (addError : Option String) : (Bool × String) × List String :=
  match pdf with
  | Except.error e => ((false, e), prior)
  | Except.ok pages =>
    let docs := keptChunks (pySplit (extractedText pages))
    let msg := "Ingested " ++ toString docs.length ++ " policy sections"
    if docs.isEmpty then ((true, msg), [])
    else
      match addError with
      | some e => ((false, e), [])
      | none => ((true, msg), docs)

/-- Shallow embedding of query_policy (src/rag_engine.py lines 163-182).
store is the policy collection contents, d the distance between the
question and a stored chunk, queryError an exception raised by the
backend and caught at lines 180-182.  n_results is 3 (line 173) and the
ranked documents are joined with a blank line (line 177). -/
def query_policy (d : String → String → ℚ) (store : List String)
    (question : String) (queryError : Option String) : Option String :=
  if store.length = 0 then none
  else
    match queryError with
    | some _ => none
    | none =>
      some (String.intercalate "\n\n" ((rankBy (fun c => d question c) store).take 3))

/-- Concrete sample pattern, taken from the weak-password scenario row
exercised by the repository test-suite. -/
def weakPassword : RiskPattern :=
  { pattern_name := "weak_password",
    description := "Users create weak passwords",
    iso_27001 := "A.9.4.3",
    soc_2 := "CC6.1",
    hipaa := "164.308(a)(5)(ii)(D)",
    nist_csf := "PR.AC-1" }

/-- Distance function declaring every pair of texts at distance zero;
used only to drive concrete evaluations of the model. -/
def dZero : String → String → ℚ := fun _ _ => 0

/-- A ranked query-result list is a permutation of the stored records. -/
theorem rankBy_perm {α : Type} (key : α → ℚ) (xs : List α) :
    List.Perm (rankBy key xs) xs :=
  List.perm_insertionSort _ xs

/-- A ranked query-result list is sorted by ascending key. -/
theorem rankBy_sorted {α : Type} (key : α → ℚ) (xs : List α) :
    List.Sorted (fun a b => key a ≤ key b) (rankBy key xs) := by
  haveI : IsTotal α (fun a b => key a ≤ key b) := ⟨fun a b => le_total (key a) (key b)⟩
  haveI : IsTrans α (fun a b => key a ≤ key b) := ⟨fun _ _ _ hab hbc => le_trans hab hbc⟩
  exact List.sorted_insertionSort _ xs

/-- The head of a ranked query-result list over a non-empty store is a
stored record of minimal key. -/
theorem rankBy_head_min {α : Type} (key : α → ℚ) (xs : List α) (hne : xs ≠ []) :
    ∃ p rest, rankBy key xs = p :: rest ∧ p ∈ xs ∧ ∀ q ∈ xs, key p ≤ key q := by
  cases hr : rankBy key xs with
  | nil =>
    have hlen := (rankBy_perm key xs).length_eq
    rw [hr] at hlen
    exact absurd (List.length_eq_zero.mp hlen.symm) hne
  | cons p rest =>
    refine ⟨p, rest, rfl, ?_, ?_⟩
    · have : p ∈ rankBy key xs := by rw [hr]; exact List.mem_cons_self p rest
      exact (rankBy_perm key xs).mem_iff.mp this
    · intro q hq
      have hq2 : q ∈ rankBy key xs := (rankBy_perm key xs).mem_iff.mpr hq
      rw [hr] at hq2
      rcases List.mem_cons.mp hq2 with h | h
      · exact le_of_eq (congrArg key h.symm)
      · have hs := rankBy_sorted key xs
        rw [hr] at hs
        exact List.rel_of_sorted_cons hs q h

/-- C1: the Mapping Resolver returns absence on an empty Pattern Store for
every input, threshold and error state, independently of the distance
function (no embedding or nearest-neighbor query contributes to the
result); on a non-empty store it retrieves a single stored pattern of
minimal distance and returns exactly the mapping of that pattern if and only
if its distance is strictly below the threshold, absence otherwise, so
lower-ranked candidates never influence the result; the default
threshold constant is 14/10 = 1.4. -/
theorem C1_resolver_nearest_and_threshold :
    defaultThreshold = mkRat 14 10 ∧
    (∀ (d : String → String → ℚ) (f : String) (t : ℚ) (e : Option String),
        get_framework_mappings d [] f t e = none) ∧
    (∀ (d : String → String → ℚ) (store : List RiskPattern) (f : String) (t : ℚ),
        store ≠ [] →
        ∃ p, p ∈ store ∧
          (∀ q ∈ store, d f p.description ≤ d f q.description) ∧
          get_framework_mappings d store f t none =
            (if d f p.description < t then some (rowMetadata p) else none)) := by
  refine ⟨rfl, fun d f t e => rfl, fun d store f t hne => ?_⟩
  obtain ⟨p, rest, hr, hmem, hmin⟩ :=
    rankBy_head_min (fun p => d f p.description) store hne
  refine ⟨p, hmem, hmin, ?_⟩
  simp only [get_framework_mappings]
  rw [if_neg (fun hc => hne (List.length_eq_zero.mp hc)), hr]

/-- C1 witness: the non-empty-store clause of C1 instantiated at a
concrete one-pattern store and the default threshold. -/
theorem C1_witness :
    ∃ p, p ∈ [weakPassword] ∧
      (∀ q ∈ [weakPassword], dZero "q" p.description ≤ dZero "q" q.description) ∧
      get_framework_mappings dZero [weakPassword] "q" defaultThreshold none =
        (if dZero "q" p.description < defaultThreshold then some (rowMetadata p)
         else none) :=
  C1_resolver_nearest_and_threshold.2.2 dZero [weakPassword] "q" defaultThreshold
    (by decide)

/-- C2 counterexample: on a concrete accepted match the resolver returns
exactly the five-key metadata record of the matched pattern; its keys are
pattern_name and the four framework identifiers and none of them is a
distance field, so the distance that produced the match (here 0) is not
carried by the result, contradicting the claim that a populated result
always carries that distance. -/
theorem C2_counterexample :
    get_framework_mappings dZero [weakPassword] "q" defaultThreshold none =
      some (rowMetadata weakPassword) ∧
    (rowMetadata weakPassword).map Prod.fst =
      ["pattern_name", "iso_27001", "soc_2", "hipaa", "nist_csf"] ∧
    ∀ kv ∈ rowMetadata weakPassword, kv.1 ≠ "distance" := by
  refine ⟨by decide, rfl, by decide⟩

/-- C2 amended: the output of the resolver is never partially populated — it is
either absence or the full metadata record of some stored pattern,
carrying the pattern_name and all four framework control identifiers
together; the distance that produced the match is not part of the
returned record. -/
theorem C2_result_never_partial (d : String → String → ℚ)
    (store : List RiskPattern) (f : String) (t : ℚ) (e : Option String) :
    get_framework_mappings d store f t e = none ∨
    ∃ p, p ∈ store ∧
      get_framework_mappings d store f t e = some (rowMetadata p) ∧
      (rowMetadata p).map Prod.fst =
        ["pattern_name", "iso_27001", "soc_2", "hipaa", "nist_csf"] := by
  by_cases hs : store.length = 0
  · left; simp [get_framework_mappings, hs]
  · cases e with
    | some msg => left; simp [get_framework_mappings, hs]
    | none =>
      have hne : store ≠ [] := fun hc => hs (by simp [hc])
      obtain ⟨p, rest, hr, hmem, hmin⟩ :=
        rankBy_head_min (fun p => d f p.description) store hne
      by_cases hd : d f p.description < t
      · right
        refine ⟨p, hmem, ?_, rfl⟩
        simp only [get_framework_mappings]
        rw [if_neg hs, hr]
        exact if_pos hd
      · left
        simp only [get_framework_mappings]
        rw [if_neg hs, hr]
        exact if_neg hd

/-- On a non-empty store without a backend error, the value of the resolver is
decided entirely by the head of the ranked query-result list. -/
theorem gfm_nonempty_eq (d : String → String → ℚ) (store : List RiskPattern)
    (f : String) (t : ℚ) (hne : store ≠ []) (p : RiskPattern)
    (rest : List RiskPattern)
    (hr : rankBy (fun p => d f p.description) store = p :: rest) :
    get_framework_mappings d store f t none =
      (if d f p.description < t then some (rowMetadata p) else none) := by
  simp only [get_framework_mappings]
  rw [if_neg (fun hc => hne (List.length_eq_zero.mp hc)), hr]

/-- C3: the threshold gate is monotone: a finding the resolver accepts at
threshold t1 against a given Pattern Store state is also accepted at any
larger threshold t2, with the same mapping returned, so the accepted set
at t1 is contained in the accepted set at t2. -/
theorem C3_threshold_monotone (d : String → String → ℚ)
    (store : List RiskPattern) (f : String) (t1 t2 : ℚ) (e : Option String)
    (hlt : t1 < t2) (m : List (String × String))
    (h1 : get_framework_mappings d store f t1 e = some m) :
    get_framework_mappings d store f t2 e = some m := by
  by_cases hs : store.length = 0
  · simp [get_framework_mappings, hs] at h1
  · cases e with
    | some msg => simp [get_framework_mappings, hs] at h1
    | none =>
      have hne : store ≠ [] := fun hc => hs (by simp [hc])
      obtain ⟨p, rest, hr, hmem, hmin⟩ :=
        rankBy_head_min (fun p => d f p.description) store hne
      rw [gfm_nonempty_eq d store f t1 hne p rest hr] at h1
      rw [gfm_nonempty_eq d store f t2 hne p rest hr]
      by_cases hd : d f p.description < t1
      · rw [if_pos hd] at h1
        rw [if_pos (lt_trans hd hlt)]
        exact h1
      · rw [if_neg hd] at h1
        exact absurd h1 (by simp)

/-- C3 witness: a mapping accepted at threshold 1 is still returned,
unchanged, at the larger threshold 2. -/
theorem C3_witness :
    get_framework_mappings dZero [weakPassword] "q" 2 none =
      some (rowMetadata weakPassword) :=
  C3_threshold_monotone dZero [weakPassword] "q" 1 2 none (by decide)
    (rowMetadata weakPassword) (by decide)

/-- C4: the exception handlers of the Mapping Resolver (lines 115-117)
and of the Context Retriever (lines 180-182) return None, which is the
very value of the normal no-match, threshold-rejection and empty-store
absence outcomes: at these concrete inputs a backend error during
resolution or retrieval is indistinguishable, in the value the caller
receives, from ordinary absence, so the claimed three-way separation of
verified match, absence and system error does not hold in the code. -/
theorem C4_error_equals_absence :
    get_framework_mappings dZero [weakPassword] "q" defaultThreshold
      (some "embedding backend failure") = none ∧
    get_framework_mappings dZero [] "q" defaultThreshold none = none ∧
    get_framework_mappings dZero [weakPassword] "q" 0 none = none ∧
    query_policy dZero ["approved policy text"] "q"
      (some "embedding backend failure") = none ∧
    query_policy dZero [] "q" none = none :=
  ⟨rfl, rfl, by decide, rfl, rfl⟩

/-- On a successful run, the policy store afterwards holds exactly the
surviving chunks of the newly ingested document. -/
theorem ingest_policy_ok_store (prior : List String)
    (pages : List (Option String)) (addErr : Option String)
    (msg : String) (store2 : List String)
    (h : ingest_policy prior (Except.ok pages) addErr = ((true, msg), store2)) :
    store2 = keptChunks (pySplit (extractedText pages)) := by
  simp only [ingest_policy] at h
  split at h
  · rename_i hde
    have hd : keptChunks (pySplit (extractedText pages)) = [] :=
      List.isEmpty_iff.mp hde
    injection h with h1 h2
    rw [← h2, hd]
  · split at h
    · injection h with h1 h2
      injection h1 with h3 h4
      exact absurd h3 (by simp)
    · injection h with h1 h2
      exact h2.symm

/-- Concrete qualifying paragraph used in concrete ingestion runs; its
stripped length exceeds the 50-character filter. -/
def sectionB : String :=
  "Section B text that is plenty long enough to pass the length filter."

/-- Concrete extracted page text: a short header paragraph followed by
the qualifying paragraph. -/
def pageB : String := "Short head.\n\n" ++ sectionB

/-- C5: policy ingestion wholesale-replaces the corpus: after any
successful ingestion, every chunk held by the Policy Store is a chunk of
the extracted text of the newly ingested document — no chunk that originated
only in the prior corpus survives — and any policy query against the new
store either returns absence or a blank-line join of chunks drawn from
that new store alone. -/
theorem C5_ingest_replaces_corpus (prior : List String)
    (pages : List (Option String)) (addErr : Option String)
    (msg : String) (store2 : List String)
    (hsucc : ingest_policy prior (Except.ok pages) addErr = ((true, msg), store2)) :
    (∀ c ∈ store2, c ∈ pySplit (extractedText pages)) ∧
    (∀ (d : String → String → ℚ) (question : String),
        query_policy d store2 question none = none ∨
        ∃ sel : List String, (∀ c ∈ sel, c ∈ store2) ∧
          query_policy d store2 question none =
            some (String.intercalate "\n\n" sel)) := by
  have hst := ingest_policy_ok_store prior pages addErr msg store2 hsucc
  constructor
  · intro c hc
    rw [hst] at hc
    exact List.mem_of_mem_filter hc
  · intro d question
    by_cases hs : store2.length = 0
    · left
      simp [query_policy, hs]
    · right
      refine ⟨(rankBy (fun c => d question c) store2).take 3, ?_, ?_⟩
      · intro c hc
        exact (rankBy_perm _ store2).mem_iff.mp (List.mem_of_mem_take hc)
      · simp only [query_policy]
        rw [if_neg hs]

/-- C5 witness: ingesting the concrete two-paragraph document over a
prior one-chunk corpus leaves exactly the new qualifying paragraph, and
queries draw only on it. -/
theorem C5_witness :
    (∀ c ∈ [sectionB], c ∈ pySplit (extractedText [some pageB])) ∧
    (∀ (d : String → String → ℚ) (question : String),
        query_policy d [sectionB] question none = none ∨
        ∃ sel : List String, (∀ c ∈ sel, c ∈ [sectionB]) ∧
          query_policy d [sectionB] question none =
            some (String.intercalate "\n\n" sel)) :=
  C5_ingest_replaces_corpus ["chunk from the previous document"] [some pageB]
    none "Ingested 1 policy sections" [sectionB] (by decide)

/-- C6: ingestion never raises: a reader error is reported as (false,
message) with the corpus left in its prior state; a store write error is
reported as (false, message) with the corpus left empty; every
successful run reports in its message exactly the number of chunks
stored; and a document all of whose chunks fall below the length filter
succeeds, reporting zero stored chunks and storing none. -/
theorem C6_ingest_error_handling :
    (∀ (prior : List String) (e : String) (addErr : Option String),
        ingest_policy prior (Except.error e) addErr = ((false, e), prior)) ∧
    (∀ (prior : List String) (pages : List (Option String)) (e : String),
        keptChunks (pySplit (extractedText pages)) ≠ [] →
        ingest_policy prior (Except.ok pages) (some e) = ((false, e), [])) ∧
    (∀ (prior : List String) (pages : List (Option String))
        (addErr : Option String) (msg : String) (store2 : List String),
        ingest_policy prior (Except.ok pages) addErr = ((true, msg), store2) →
        msg = "Ingested " ++ toString store2.length ++ " policy sections") ∧
    (∀ (prior : List String) (pages : List (Option String)),
        (∀ c ∈ pySplit (extractedText pages), (pyStrip c).length ≤ 50) →
        ingest_policy prior (Except.ok pages) none =
          ((true, "Ingested 0 policy sections"), [])) := by
  refine ⟨fun prior e addErr => rfl, ?_, ?_, ?_⟩
  · intro prior pages e hne
    simp only [ingest_policy]
    rw [if_neg (by simpa [List.isEmpty_iff] using hne)]
  · intro prior pages addErr msg store2 h
    have hst := ingest_policy_ok_store prior pages addErr msg store2 h
    simp only [ingest_policy] at h
    split at h
    · rename_i hde
      injection h with h1 h2
      injection h1 with h3 h4
      rw [← h4, hst, List.isEmpty_iff.mp hde]
    · split at h
      · injection h with h1 h2
        injection h1 with h3 h4
        exact absurd h3 (by simp)
      · injection h with h1 h2
        injection h1 with h3 h4
        rw [← h4, hst]
  · intro prior pages hall
    have hke : keptChunks (pySplit (extractedText pages)) = [] := by
      rw [keptChunks, List.filter_eq_nil_iff]
      intro c hc
      simpa using not_lt.mpr (hall c hc)
    simp only [ingest_policy]
    rw [if_pos (by simp [hke])]
    rw [hke]
    rfl

/-- C6 witness: a reader error is reported with the corpus untouched, and
a document whose only chunk is under the filter succeeds with zero
stored chunks. -/
theorem C6_witness :
    ingest_policy ["kept prior chunk"] (Except.error "bad file") none =
      ((false, "bad file"), ["kept prior chunk"]) ∧
    ingest_policy ["kept prior chunk"] (Except.ok [some "tiny text"]) none =
      ((true, "Ingested 0 policy sections"), []) ∧
    ingest_policy ["kept prior chunk"] (Except.ok [some pageB]) (some "disk full") =
      ((false, "disk full"), []) :=
  ⟨C6_ingest_error_handling.1 ["kept prior chunk"] "bad file" none,
   C6_ingest_error_handling.2.2.2 ["kept prior chunk"] [some "tiny text"]
     (by decide),
   C6_ingest_error_handling.2.1 ["kept prior chunk"] [some pageB] "disk full"
     (by decide)⟩

/-- Concrete extracted text of the two-page scenario of the spec: a short
first paragraph, a blank line, and a second paragraph whose stripped
length is exactly 50 characters. -/
def specScenarioText : String :=
  "Section A text.\n\nSection B text that is long enough to pass filter."

/-- C7 counterexample: ingesting the two-page scenario text of the spec stores
zero chunks, not one: the second paragraph is exactly 50 characters long
after stripping, and the filter keeps only chunks whose stripped length
strictly exceeds 50, so it is discarded along with the short first
paragraph. -/
theorem C7_counterexample :
    ingest_policy [] (Except.ok [some specScenarioText]) none =
      ((true, "Ingested 0 policy sections"), []) ∧
    pySplit specScenarioText =
      ["Section A text.",
       "Section B text that is long enough to pass filter."] ∧
    (pyStrip "Section B text that is long enough to pass filter.").length = 50 :=
  ⟨by decide, by decide, by decide⟩

/-- C7 amended: ingestion splits the concatenated extracted text into
chunks on double-newline boundaries and stores exactly the chunks whose
whitespace-stripped length strictly exceeds 50 characters (a chunk of
stripped length exactly 50 is also discarded); in the two-page scenario
of the spec the second paragraph strips to exactly 50 characters, so zero
chunks are stored. -/
theorem C7_chunking_and_filter (prior : List String)
    (pages : List (Option String)) :
    (ingest_policy prior (Except.ok pages) none).2 =
      (pySplit (extractedText pages)).filter
        (fun c => 50 < (pyStrip c).length) ∧
    ingest_policy [] (Except.ok [some specScenarioText]) none =
      ((true, "Ingested 0 policy sections"), []) := by
  constructor
  · by_cases hde : (keptChunks (pySplit (extractedText pages))).isEmpty
    · have h1 : ingest_policy prior (Except.ok pages) none =
          ((true, "Ingested " ++
             toString (keptChunks (pySplit (extractedText pages))).length ++
             " policy sections"), []) := by
        simp only [ingest_policy]
        rw [if_pos hde]
      rw [h1]
      exact (List.isEmpty_iff.mp hde).symm
    · have h1 : ingest_policy prior (Except.ok pages) none =
          ((true, "Ingested " ++
             toString (keptChunks (pySplit (extractedText pages))).length ++
             " policy sections"), keptChunks (pySplit (extractedText pages))) := by
        simp only [ingest_policy]
        rw [if_neg hde]
      rw [h1]
      rfl
  · decide

/-- C8: Pattern Store loading is idempotent by count and soft-disabling:
on an already non-empty store it is a no-op returning success with the
store unchanged, whatever the corpus source holds; when the store is
empty and the corpus source file is absent it returns the disabled
status false without touching the store, and every subsequent Mapping
Resolver query against the resulting store returns absence. -/
theorem C8_load_idempotent_soft_disable :
    (∀ (store : List RiskPattern) (csv : Option (List RiskPattern)),
        store ≠ [] → load_crosswalk_db store csv = (true, store)) ∧
    load_crosswalk_db [] none = (false, []) ∧
    (∀ (d : String → String → ℚ) (f : String) (t : ℚ) (e : Option String),
        get_framework_mappings d (load_crosswalk_db [] none).2 f t e = none) := by
  refine ⟨?_, rfl, fun d f t e => rfl⟩
  intro store csv hne
  simp only [load_crosswalk_db]
  rw [if_pos (List.length_pos.mpr hne)]

/-- C8 witness: loading over an already loaded one-pattern store is a
no-op returning success, even with the corpus file absent. -/
theorem C8_witness :
    load_crosswalk_db [weakPassword] none = (true, [weakPassword]) :=
  C8_load_idempotent_soft_disable.1 [weakPassword] none (by decide)

/-- C9: the Context Retriever returns absence exactly when the Policy
Store is empty; on a non-empty store it returns the blank-line join, in
ranked order, of the first three entries of the distance-ranked store —
at most three chunks, all drawn from the store, sorted by ascending
distance, every retrieved chunk at most as distant as any chunk left
out — and no distance threshold restricts the selection: the count
retrieved is min 3 (store size) whatever the distances are. -/
theorem C9_retriever_top3_no_gate (d : String → String → ℚ)
    (store : List String) (question : String) :
    (store = [] → query_policy d store question none = none) ∧
    (store ≠ [] →
      ∃ sel : List String,
        query_policy d store question none =
          some (String.intercalate "\n\n" sel) ∧
        sel = (rankBy (fun c => d question c) store).take 3 ∧
        sel.length = min 3 store.length ∧
        (∀ c ∈ sel, c ∈ store) ∧
        List.Sorted (fun a b => d question a ≤ d question b) sel ∧
        (∀ x ∈ sel, ∀ y ∈ store, y ∉ sel → d question x ≤ d question y)) := by
  constructor
  · intro he
    simp [query_policy, he]
  · intro hne
    have hs : ¬store.length = 0 := fun hc => hne (List.length_eq_zero.mp hc)
    refine ⟨(rankBy (fun c => d question c) store).take 3, ?_, rfl, ?_, ?_, ?_, ?_⟩
    · simp only [query_policy]
      rw [if_neg hs]
    · rw [List.length_take, (rankBy_perm (fun c => d question c) store).length_eq]
    · intro c hc
      exact (rankBy_perm _ store).mem_iff.mp (List.mem_of_mem_take hc)
    · exact (rankBy_sorted (fun c => d question c) store).sublist
        (List.take_sublist 3 _)
    · intro x hx y hy hyn
      have hyr : y ∈ rankBy (fun c => d question c) store :=
        (rankBy_perm _ store).mem_iff.mpr hy
      have hyr2 : y ∈ (rankBy (fun c => d question c) store).take 3 ++
          (rankBy (fun c => d question c) store).drop 3 := by
        rw [List.take_append_drop]
        exact hyr
      have hyd : y ∈ (rankBy (fun c => d question c) store).drop 3 := by
        rcases List.mem_append.mp hyr2 with h | h
        · exact absurd h hyn
        · exact h
      exact (rankBy_sorted (fun c => d question c) store).rel_of_mem_take_of_mem_drop
        hx hyd

/-- C9 witness: the non-empty clause instantiated at a concrete two-chunk
store. -/
theorem C9_witness :
    ∃ sel : List String,
      query_policy dZero ["first chunk", "second chunk"] "q" none =
        some (String.intercalate "\n\n" sel) ∧
      sel = (rankBy (fun c => dZero "q" c) ["first chunk", "second chunk"]).take 3 ∧
      sel.length = min 3 (["first chunk", "second chunk"] : List String).length ∧
      (∀ c ∈ sel, c ∈ (["first chunk", "second chunk"] : List String)) ∧
      List.Sorted (fun a b => dZero "q" a ≤ dZero "q" b) sel ∧
      (∀ x ∈ sel, ∀ y ∈ (["first chunk", "second chunk"] : List String),
          y ∉ sel → dZero "q" x ≤ dZero "q" y) :=
  (C9_retriever_top3_no_gate dZero ["first chunk", "second chunk"] "q").2
    (by decide)

/-- Concrete surviving chunk carrying leading and trailing spaces, stored
raw by the ingestion step. -/
def rawChunk : String :=
  " Padded section text kept with its surrounding spaces by the ingestion step. "

/-- C10: after every successful ingestion the Policy Store holds exactly
the raw chunks of the document whose stripped length strictly exceeds 50
characters: every stored chunk strips to more than 50 characters, is one
of the raw double-newline chunks of the extracted text (stored
unstripped, possibly with surrounding whitespace), and a chunk whose
stripped length is exactly 50 is never stored — the filter is computed
on the stripped form while the stored text is the raw form. -/
theorem C10_filter_stripped_store_raw (prior : List String)
    (pages : List (Option String)) (addErr : Option String)
    (msg : String) (store2 : List String)
    (hsucc : ingest_policy prior (Except.ok pages) addErr = ((true, msg), store2)) :
    store2 = (pySplit (extractedText pages)).filter
        (fun c => 50 < (pyStrip c).length) ∧
    (∀ c ∈ store2, 50 < (pyStrip c).length ∧ c ∈ pySplit (extractedText pages)) ∧
    (∀ c ∈ pySplit (extractedText pages),
        (pyStrip c).length = 50 → c ∉ store2) := by
  have hst := ingest_policy_ok_store prior pages addErr msg store2 hsucc
  refine ⟨hst, ?_, ?_⟩
  · intro c hc
    rw [hst] at hc
    exact ⟨by simpa using (List.mem_filter.mp hc).2, List.mem_of_mem_filter hc⟩
  · intro c _ h50 hcs
    rw [hst] at hcs
    have h := (List.mem_filter.mp hcs).2
    simp [h50] at h

/-- C10 witness: ingesting a concrete document with a short header and a
padded long paragraph stores exactly the raw padded paragraph, spaces
included. -/
theorem C10_witness :
    ([rawChunk] =
      (pySplit (extractedText [some ("hdr\n\n" ++ rawChunk)])).filter
        (fun c => 50 < (pyStrip c).length)) ∧
    (∀ c ∈ [rawChunk], 50 < (pyStrip c).length ∧
        c ∈ pySplit (extractedText [some ("hdr\n\n" ++ rawChunk)])) ∧
    (∀ c ∈ pySplit (extractedText [some ("hdr\n\n" ++ rawChunk)]),
        (pyStrip c).length = 50 → c ∉ [rawChunk]) :=
  C10_filter_stripped_store_raw [] [some ("hdr\n\n" ++ rawChunk)] none
    "Ingested 1 policy sections" [rawChunk] (by decide)

end RagEngine
